import Mathlib

/-!
Verification of the domain-restricted concurrent web crawler (src/src/main.rs).

The crawler's own code (`Crawler::new`, `fetch`, `extract_links`,
`is_visited`, `mark_visited`, `process_url`, `main`) is embedded shallowly
below.  The external libraries it calls (the `url` crate's URL parsing and
resolution, the `scraper` crate's HTML document model and CSS selection,
and `reqwest`'s HTTP transport) are modelled at their interface boundary:
a simplified but executable `Url` type with `parse`, `join`, `domain`, and
a DOM tree `HtmlNode` with document-order selection, which is the
granularity at which the crawler code observes them.
-/

namespace Crawlers

/-- Interface model of the `url` crate's `Url`: a scheme, a host component
and a path.  Only the pieces `main.rs` observes (`parse`, `join`, `domain`,
serialization) are modelled. -/
structure Url where
  scheme : String
  host : String
  path : String
deriving DecidableEq, Repr

/-- Splits a character list at the first occurrence of `"://"`: the scheme
characters before it and the remainder after it. -/
def splitScheme : List Char → Option (List Char × List Char)
  | [] => none
  | ':' :: '/' :: '/' :: rest => some ([], rest)
  | x :: xs => (splitScheme xs).map (fun p => (x :: p.1, p.2))

/-- Splits the part after the scheme at the first `'/'`: the host
characters and the remainder (which keeps its leading `'/'`). -/
def splitHost : List Char → List Char × List Char
  | [] => ([], [])
  | '/' :: rest => ([], '/' :: rest)
  | x :: xs => ((splitHost xs).1.cons x, (splitHost xs).2)

/-- Interface model of `Url::parse`: splits `scheme://host/path`; fails
(returns `none`, as `Url::parse` returns `Err`) when there is no
`"://"`, the scheme is empty, or the host is empty — mirroring the url
crate's rejection of empty hosts for special schemes.  A URL without a
path gets path `"/"`, as the url crate serializes it. -/
def Url.parse (s : String) : Option Url :=
  match splitScheme s.data with
  | none => none
  | some (sch, rest) =>
    if sch = [] then none
    else
      let hp := splitHost rest
      if hp.1 = [] then none
      else some ⟨⟨sch⟩, ⟨hp.1⟩, ⟨if hp.2 = [] then ['/'] else hp.2⟩⟩

/-- Model of the url crate's classification of hosts that are IP addresses
(for which `Url::domain()` returns `None`): digits-and-dots hosts. -/
def isIpHost (h : String) : Bool :=
  h ≠ "" && h.data.all (fun c => c.isDigit || c = '.')

/-- Interface model of `Url::domain()`: `None` when there is no host or the
host is an IP address, otherwise the host string. -/
def Url.domain (u : Url) : Option String :=
  if u.host = "" ∨ isIpHost u.host then none else some u.host

/-- Interface model of URL serialization (`Url`'s `Display`, reached via
`resolved.to_string()`). -/
def Url.serialize (u : Url) : String :=
  u.scheme ++ "://" ++ u.host ++ u.path

/-- Drops a reversed path's final segment, keeping the `'/'` that ends the
remaining directory part. -/
def dropSegRev : List Char → List Char
  | [] => []
  | '/' :: xs => '/' :: xs
  | _ :: xs => dropSegRev xs

/-- Interface model of `Url::join`: an href containing `"://"` is parsed
as absolute; a root-relative href replaces the path; any other href is
merged onto the base path's directory. -/
def Url.join (base : Url) (href : String) : Option Url :=
  if (splitScheme href.data).isSome then Url.parse href
  else
    match href.data with
    | '/' :: _ => some ⟨base.scheme, base.host, href⟩
    | _ =>
      let dir : List Char := (dropSegRev base.path.data.reverse).reverse
      some ⟨base.scheme, base.host, ⟨dir ++ href.data⟩⟩

/-- Interface model of the `scraper` crate's DOM: a node is a text node or
an element with a tag, attributes and children.  `Html::parse_document` is
modelled by working directly on this tree. -/
inductive HtmlNode where
  | text (s : String)
  | elem (tag : String) (attrs : List (String × String)) (children : List HtmlNode)

/-- An HTML document: the parsed node forest. -/
abbrev HtmlDoc := List HtmlNode

mutual

/-- Document-order (preorder) selection of the elements with a given tag,
modelling `document.select(&Selector::parse(tag))`. -/
def selectTag (t : String) : HtmlNode → List HtmlNode
  | .text _ => []
  | .elem tag attrs cs =>
    (if tag = t then [HtmlNode.elem tag attrs cs] else []) ++ selectTagList t cs

/-- `selectTag` over a node forest, in document order. -/
def selectTagList (t : String) : List HtmlNode → List HtmlNode
  | [] => []
  | n :: ns => selectTag t n ++ selectTagList t ns

end

mutual

/-- The descendant text chunks of a node in document order, modelling
`ElementRef::text()`. -/
def textChunks : HtmlNode → List String
  | .text s => [s]
  | .elem _ _ cs => textChunksList cs

/-- `textChunks` over a node forest. -/
def textChunksList : List HtmlNode → List String
  | [] => []
  | n :: ns => textChunks n ++ textChunksList ns

end

/-- `e.text().collect::<Vec<_>>().join("")`: the concatenated descendant
text of a node. -/
def nodeText (n : HtmlNode) : String :=
  String.join (textChunks n)

/-- `element.attr(name)`: the first attribute with the given name, if any. -/
def attrOf (name : String) : HtmlNode → Option String
  | .text _ => none
  | .elem _ attrs _ => attrs.lookup name

/-- The crawler state (`struct Crawler`): the shared visited set (the
`HashSet<String>` behind the mutex) and the immutable domain filter.  The
HTTP client carries no state the embedded code observes. -/
structure Crawler where
  visited : List String
  base_domain : String
deriving DecidableEq, Repr

/-- `Crawler::new`: parse the base URL (the `expect` panic on a parse
failure is modelled by `none`), then take its domain with
`unwrap_or("")`, and start with an empty visited set. -/
def Crawler.new (base_url : String) : Option Crawler :=
  (Url.parse base_url).map fun u => ⟨[], u.domain.getD ""⟩

/-- The outcome of `self.client.get(&url).send().await`: either a response
carrying a status and a body (`none` body models a text-decoding failure),
or a transport-level error (DNS, connect, TLS, timeout) with its cause. -/
inductive FetchOutcome where
  | response (status : Nat) (body : Option String)
  | transportError (cause : String)
deriving DecidableEq, Repr

/-- `StatusCode::is_success`: the 2xx range. -/
def isSuccessStatus (s : Nat) : Bool :=
  200 ≤ s && s < 300

/-- `Crawler::fetch`: on a response with a success status, return the body
text (`unwrap_or_default`, so `""` when decoding fails); on a non-success
status or a transport error, log to stderr and return `None`. -/
def Crawler.fetch (url : String) (outcome : FetchOutcome) : Option String :=
  match outcome with
  | .response status body =>
    if isSuccessStatus status then some (body.getD "") else none
  | .transportError _ => none

/-- The result of `Crawler::extract_links`: the links it returns, together
with the page title it computes (and prints — the observable output). -/
structure ExtractResult where
  title : String
  links : List String
deriving DecidableEq, Repr

/-- `Crawler::extract_links`: the title is the text of the first `title`
element, `"(no title)"` when there is none; the links are, in document
order, each `a[href]` element's href resolved against `current_url`, kept
only when the resolved URL's domain equals `Some(self.base_domain)`, and
serialized with `to_string`. -/
def Crawler.extract_links (c : Crawler) (doc : HtmlDoc) (current_url : String) :
    ExtractResult :=
  let title :=
    match (selectTagList "title" doc).head? with
    | some e => nodeText e
    | none => "(no title)"
  let links :=
    (selectTagList "a" doc).filterMap fun el => do
      let href ← attrOf "href" el
      let base ← Url.parse current_url
      let resolved ← base.join href
      if resolved.domain = some c.base_domain then some resolved.serialize
      else none
  ⟨title, links⟩

/-- The successfully resolved href targets of a page, in document order:
each `a[href]` element's href joined against `current_url`, before the
domain filter of `extract_links` is applied. -/
def resolvedTargets (doc : HtmlDoc) (current_url : String) : List Url :=
  (selectTagList "a" doc).filterMap fun el => do
    let href ← attrOf "href" el
    let base ← Url.parse current_url
    base.join href

/-- `Crawler::is_visited`: `self.visited.lock().await.contains(url)` — one
read under the lock, no mutation. -/
def Crawler.is_visited (c : Crawler) (url : String) : Bool :=
  c.visited.contains url

/-- `HashSet::insert`: add the element when absent, and report whether this
call inserted it. -/
def insertNew (url : String) (s : List String) : Bool × List String :=
  if url ∈ s then (false, s) else (true, url :: s)

/-- `Crawler::mark_visited`: `self.visited.lock().await.insert(url)` — one
test-and-set under the lock, returning whether this call was the first to
insert the URL. -/
def Crawler.mark_visited (c : Crawler) (url : String) : Bool × Crawler :=
  let r := insertNew url c.visited
  (r.1, ⟨r.2, c.base_domain⟩)

/-- The observable effects of one `Crawler::process_url` call: the new
crawler state, the links sent on the channel, and whether `fetch` was
invoked. -/
structure ProcessResult where
  crawler : Crawler
  sent : List String
  fetchInvoked : Bool
deriving DecidableEq, Repr

/-- `Crawler::process_url`, sequential semantics (one worker, no
interleaving): return early when `is_visited`; otherwise invoke `fetch`;
on `Some(html)` mark the URL visited, then send each extracted link that
is not yet visited; on `None` return with no state change.
`Html::parse_document` on the fetched body is modelled by `parseOf`. -/
def Crawler.process_url (c : Crawler) (url : String) (outcome : FetchOutcome)
    (parseOf : String → HtmlDoc) : ProcessResult :=
  if c.is_visited url then ⟨c, [], false⟩
  else
    match Crawler.fetch url outcome with
    | none => ⟨c, [], true⟩
    | some html =>
      let c1 := (c.mark_visited url).2
      let ls := (c1.extract_links (parseOf html) url).links
      ⟨c1, ls.filter (fun l => !(c1.is_visited l)), true⟩

/-- Program counter of one worker inside `process_url` for a fixed URL:
about to run the `is_visited` check; about to invoke `fetch` (the check
answered "not visited"); about to run `mark_visited` (the fetch
succeeded); or finished. -/
inductive WorkerPc where
  | checking
  | fetching
  | marking
  | done
deriving DecidableEq, Repr

/-- Global state of the interleaved system: the shared visited set, each
worker's program counter, and a ghost count of `fetch` invocations for the
URL being processed. -/
structure RaceState where
  visited : List String
  pcs : List WorkerPc
  fetchCount : Nat
deriving DecidableEq, Repr

/-- One atomic step of worker `i` processing URL `u` (with `fetch`
succeeding).  Each lock-protected operation of `process_url` is one atomic
transition, exactly as the code acquires and releases the mutex separately
for `is_visited` and for `mark_visited`, with the `fetch` await between
them. -/
def raceStep (u : String) (st : RaceState) (i : Nat) : RaceState :=
  match st.pcs[i]? with
  | some .checking =>
    if st.visited.contains u then ⟨st.visited, st.pcs.set i .done, st.fetchCount⟩
    else ⟨st.visited, st.pcs.set i .fetching, st.fetchCount⟩
  | some .fetching => ⟨st.visited, st.pcs.set i .marking, st.fetchCount + 1⟩
  | some .marking =>
    ⟨(insertNew u st.visited).2, st.pcs.set i .done, st.fetchCount⟩
  | _ => st

/-- Run the interleaved system under a schedule (a list of worker
indices). -/
def raceRun (u : String) (st : RaceState) (sched : List Nat) : RaceState :=
  sched.foldl (raceStep u) st

/-- The state of `main`'s final statement.  The source ends in an
unconditional `loop` whose body only sleeps for 30 seconds; `exited` is
the state in which `main` has returned, letting the process exit. -/
inductive MainPhase where
  | sleeping
  | exited
deriving DecidableEq, Repr

/-- One iteration of the final loop of `main`: sleep, then loop again —
the body contains no `break` and no `return`. -/
def mainLoopStep : MainPhase → MainPhase
  | .sleeping => .sleeping
  | .exited => .exited

/-- The phase of `main` after `n` iterations of its final loop, starting
when `main` enters the loop. -/
def mainLoopAfter : Nat → MainPhase
  | 0 => .sleeping
  | n + 1 => mainLoopStep (mainLoopAfter n)

/-- One call to the visited-set interface of `Crawler`. -/
inductive VisitedOp where
  | isVis (url : String)
  | markVis (url : String)
deriving DecidableEq, Repr

/-- The crawler state after one visited-set call: `is_visited` only reads
under the lock; `mark_visited` updates via `HashSet::insert`. -/
def applyVisitedOp (c : Crawler) : VisitedOp → Crawler
  | .isVis _ => c
  | .markVis u => (c.mark_visited u).2

/-- The crawler state after a sequence of visited-set calls. -/
def runVisitedOps (c : Crawler) (ops : List VisitedOp) : Crawler :=
  ops.foldl applyVisitedOp c

/-- A concrete page with a `title` element whose text is split across a
text node and a nested element. -/
def titleDocA : HtmlDoc :=
  [.elem "html" []
    [.elem "head" [] [.elem "title" [] [.text "My ", .elem "b" [] [.text "Page"]]],
     .elem "body" [] []]]

/-- A concrete page with no `title` element. -/
def titleDocB : HtmlDoc :=
  [.elem "html" [] [.elem "body" [] [.text "hello"]]]

/-! ## Theorems -/

/-- A resolved URL's domain is never the empty string: `Url.domain` answers
`some h` only under the guard `h ≠ ""`. -/
theorem Url.domain_ne_some_empty (u : Url) : u.domain ≠ some "" := by
  unfold Url.domain
  split
  · exact fun h => Option.noConfusion h
  · rename_i hg
    push_neg at hg
    intro h
    exact hg.1 (Option.some.inj h)

/-- The links of `extract_links` are exactly the resolved href targets,
filtered by the exact-domain test and serialized. -/
theorem extract_links_links_eq (c : Crawler) (doc : HtmlDoc) (url : String) :
    (c.extract_links doc url).links =
      (resolvedTargets doc url).filterMap
        (fun r => if r.domain = some c.base_domain then some r.serialize else none) := by
  simp only [Crawler.extract_links, resolvedTargets, List.filterMap_filterMap]
  congr 1
  funext el
  cases attrOf "href" el with
  | none => rfl
  | some href =>
    cases Url.parse url with
    | none => rfl
    | some base => rfl

/-- Claim C1: the claim states that admission is a single atomic
test-and-set and that `fetch` runs at most once per URL.  The code instead
runs `is_visited` and `mark_visited` as separate lock acquisitions, with
`mark_visited` only after a successful fetch; under the interleaving in
which two workers holding the same URL both pass the `is_visited` check
before either marks, `fetch` is invoked twice for that URL. -/
theorem duplicate_fetch_race :
    raceRun "https://example.com/p" ⟨[], [.checking, .checking], 0⟩ [0, 1, 0, 1, 0, 1] =
      ⟨["https://example.com/p"], [.done, .done], 2⟩ := by
  rfl

/-- Claim C2: the claim states the process exits once the crawl completes.
The final statement of `main` is an unconditional loop whose body only
sleeps, so `main` stays in the sleeping phase after any number of
iterations and never reaches the exited phase. -/
theorem main_never_exits : ∀ n : Nat, mainLoopAfter n = MainPhase.sleeping := by
  intro n
  induction n with
  | zero => rfl
  | succ n ih => simp [mainLoopAfter, ih, mainLoopStep]

/-- Claim C3: `mark_visited(u)` returns `true` exactly when `u` was not
already in the visited set, and afterwards `u` is in the set. -/
theorem mark_visited_first_insert (c : Crawler) (u : String) :
    ((c.mark_visited u).1 = true ↔ u ∉ c.visited) ∧ u ∈ (c.mark_visited u).2.visited := by
  unfold Crawler.mark_visited insertNew
  by_cases h : u ∈ c.visited <;> simp [h]

/-- Claim C4: a string is kept in the links of `extract_links` exactly when
it is the serialization of a resolved href target whose domain equals
`Some(base_domain)` under exact string equality; every other resolved
target (subdomain, external host, no domain) is discarded. -/
theorem extract_links_domain_filter (c : Crawler) (doc : HtmlDoc) (url s : String) :
    s ∈ (c.extract_links doc url).links ↔
      ∃ r ∈ resolvedTargets doc url, r.domain = some c.base_domain ∧ s = r.serialize := by
  rw [extract_links_links_eq]
  simp only [List.mem_filterMap]
  constructor
  · rintro ⟨r, hr, hf⟩
    by_cases hd : r.domain = some c.base_domain
    · rw [if_pos hd] at hf
      exact ⟨r, hr, hd, (Option.some.inj hf).symm⟩
    · rw [if_neg hd] at hf
      exact absurd hf (Option.noConfusion ·)
  · rintro ⟨r, hr, hd, rfl⟩
    exact ⟨r, hr, by rw [if_pos hd]⟩

/-- Claim C5: the title computed by `extract_links` is the text content of
the first `title` element of the document, and the sentinel `"(no title)"`
when the document has no `title` element. -/
theorem extract_links_title_spec (c : Crawler) (doc : HtmlDoc) (url : String) :
    (∀ e l, selectTagList "title" doc = e :: l →
      (c.extract_links doc url).title = nodeText e) ∧
    (selectTagList "title" doc = [] →
      (c.extract_links doc url).title = "(no title)") := by
  constructor
  · intro e l h
    simp [Crawler.extract_links, h]
  · intro h
    simp [Crawler.extract_links, h]

/-- Witness for claim C5, at a page whose first `title` text is split
across nodes and at a page with no `title` element. -/
theorem extract_links_title_spec_witness :
    (Crawler.extract_links ⟨[], "example.com"⟩ titleDocA "https://example.com").title
        = "My Page" ∧
    (Crawler.extract_links ⟨[], "example.com"⟩ titleDocB "https://example.com").title
        = "(no title)" := by
  constructor
  · have h := (extract_links_title_spec ⟨[], "example.com"⟩ titleDocA
      "https://example.com").1
      (HtmlNode.elem "title" [] [.text "My ", .elem "b" [] [.text "Page"]]) [] (by rfl)
    rw [h]
    rfl
  · exact (extract_links_title_spec ⟨[], "example.com"⟩ titleDocB
      "https://example.com").2 (by rfl)

/-- Counterexample to claim C6: an HTTP-status failure and a transport
failure produce the same return value (`None`), so the two failure kinds
are not surfaced distinctly to the caller, and the returned value carries
neither the URL nor the cause. -/
theorem fetch_failures_indistinct :
    Crawler.fetch "https://example.com/a" (.transportError "connection timed out") =
      Crawler.fetch "https://example.com/a" (.response 404 (some "Not Found")) ∧
    Crawler.fetch "https://example.com/a" (.transportError "connection timed out") =
      none := by
  exact ⟨rfl, rfl⟩

/-- Claim C6 as amended: `fetch` returns a body exactly when the response
status is in the success range, substituting `""` when body decoding
fails; on a non-success status and on a transport error it returns `None`
(the URL and cause are only logged, and the two failure kinds are not
distinguished in the return value). -/
theorem fetch_success_contract (url : String) :
    (∀ outcome, (Crawler.fetch url outcome).isSome = true ↔
      ∃ s b, outcome = .response s b ∧ isSuccessStatus s = true) ∧
    (∀ s b, isSuccessStatus s = true →
      Crawler.fetch url (.response s (some b)) = some b) ∧
    (∀ s, isSuccessStatus s = true → Crawler.fetch url (.response s none) = some "") ∧
    (∀ s b, isSuccessStatus s = false → Crawler.fetch url (.response s b) = none) ∧
    (∀ e, Crawler.fetch url (.transportError e) = none) := by
  refine ⟨?_, ?_, ?_, ?_, ?_⟩
  · intro outcome
    cases outcome with
    | response s b =>
      by_cases hs : isSuccessStatus s = true
      · simp [Crawler.fetch, hs]
      · simp [Crawler.fetch, hs]
    | transportError e => simp [Crawler.fetch]
  · intro s b hs
    simp [Crawler.fetch, hs]
  · intro s hs
    simp [Crawler.fetch, hs]
  · intro s b hs
    simp [Crawler.fetch, hs]
  · intro e
    rfl

/-- Witness for the amended claim C6, at status 200 with a decoded and an
undecodable body, at status 404, and at a transport error. -/
theorem fetch_success_contract_witness :
    Crawler.fetch "https://example.com/a" (.response 200 (some "hi")) = some "hi" ∧
    Crawler.fetch "https://example.com/a" (.response 200 none) = some "" ∧
    Crawler.fetch "https://example.com/a" (.response 404 (some "hi")) = none ∧
    Crawler.fetch "https://example.com/a" (.transportError "dns") = none := by
  have h := fetch_success_contract "https://example.com/a"
  exact ⟨h.2.1 200 "hi" (by decide), h.2.2.1 200 (by decide),
    h.2.2.2.1 404 (some "hi") (by decide), h.2.2.2.2 "dns"⟩

/-- Claim C7: the claim states a URL whose fetch fails is marked visited
exactly once and never fetched again.  In the code `mark_visited` runs only
after a successful fetch, so a failed URL is never marked: `process_url` on
a fresh URL whose fetch returns 404 invokes `fetch` and leaves the crawler
state unchanged, and processing the same URL again (rediscovery) invokes
`fetch` a second time. -/
theorem failed_fetch_unmarked_refetched :
    Crawler.process_url ⟨[], "example.com"⟩ "https://example.com/a"
        (.response 404 none) (fun _ => []) =
      ⟨⟨[], "example.com"⟩, [], true⟩ ∧
    ((Crawler.process_url ⟨[], "example.com"⟩ "https://example.com/a"
        (.response 404 none) (fun _ => [])).crawler.process_url "https://example.com/a"
        (.response 404 none) (fun _ => [])).fetchInvoked = true := by
  exact ⟨rfl, rfl⟩

/-- Claim C8: the visited set is monotone — `is_visited` never mutates it,
each call leaves the previous set included in the new one (hence so does
any sequence of calls), and `mark_visited u` changes the membership of no
URL other than `u`. -/
theorem visited_set_monotone (c : Crawler) :
    (∀ op, c.visited ⊆ (applyVisitedOp c op).visited) ∧
    (∀ ops, c.visited ⊆ (runVisitedOps c ops).visited) ∧
    (∀ u v, v ≠ u → (v ∈ (c.mark_visited u).2.visited ↔ v ∈ c.visited)) := by
  have hop : ∀ (c' : Crawler) (op : VisitedOp), c'.visited ⊆ (applyVisitedOp c' op).visited := by
    intro c' op
    cases op with
    | isVis u => exact fun a ha => ha
    | markVis u =>
      intro a ha
      simp only [applyVisitedOp, Crawler.mark_visited, insertNew]
      by_cases h : u ∈ c'.visited <;> simp [h, ha]
  refine ⟨hop c, ?_, ?_⟩
  · intro ops
    induction ops generalizing c with
    | nil => exact fun a ha => ha
    | cons op ops ih =>
      exact fun a ha => ih (applyVisitedOp c op) (hop c op ha)
  · intro u v hvu
    simp only [Crawler.mark_visited, insertNew]
    by_cases h : u ∈ c.visited <;> simp [h, hvu]

/-- Witness for claim C8: a concrete crawler, operation sequence, and a
distinct pair of URLs. -/
theorem visited_set_monotone_witness :
    "https://a.b/" ∈
      (runVisitedOps ⟨["https://a.b/"], "a.b"⟩
        [.markVis "https://a.b/x", .isVis "https://a.b/y"]).visited ∧
    ("https://a.b/" ∈ (Crawler.mark_visited ⟨["https://a.b/"], "a.b"⟩
        "https://a.b/x").2.visited ↔ "https://a.b/" ∈ ["https://a.b/"]) := by
  have h := visited_set_monotone ⟨["https://a.b/"], "a.b"⟩
  exact ⟨h.2.1 [.markVis "https://a.b/x", .isVis "https://a.b/y"] (by decide),
    h.2.2 "https://a.b/x" "https://a.b/" (by decide)⟩

/-- Claim C9: `extract_links` is deterministic and stateless — its result
does not depend on the mutable crawler state (the visited set), only on
the immutable domain filter and the (html, url) input, so two calls on
identical input in any two crawler states return identical output. -/
theorem extract_links_stateless (v₁ v₂ : List String) (bd : String)
    (doc : HtmlDoc) (url : String) :
    Crawler.extract_links ⟨v₁, bd⟩ doc url = Crawler.extract_links ⟨v₂, bd⟩ doc url := by
  rfl

/-- Claim C10: when the seed URL parses but has no domain component,
`Crawler::new` succeeds with an empty-string domain filter, and
`extract_links` then keeps no link from any page, because no resolved
URL's domain is `Some("")`. -/
theorem crawler_new_empty_domain (s : String) (u : Url)
    (hp : Url.parse s = some u) (hd : u.domain = none) :
    ∃ c, Crawler.new s = some c ∧ c.base_domain = "" ∧
      ∀ doc url, (c.extract_links doc url).links = [] := by
  refine ⟨⟨[], ""⟩, ?_, rfl, ?_⟩
  · simp [Crawler.new, hp, hd]
  · intro doc url
    rw [extract_links_links_eq]
    rw [List.filterMap_eq_nil_iff]
    intro r hr
    rw [if_neg]
    exact Url.domain_ne_some_empty r

/-- Witness for claim C10, at the IP-host seed `http://127.0.0.1/`. -/
theorem crawler_new_empty_domain_witness :
    ∃ c, Crawler.new "http://127.0.0.1/" = some c ∧ c.base_domain = "" ∧
      ∀ doc url, (c.extract_links doc url).links = [] :=
  crawler_new_empty_domain "http://127.0.0.1/" ⟨"http", "127.0.0.1", "/"⟩
    (by decide) (by decide)

end Crawlers
